import Mathlib

set_option maxRecDepth 16000

/-!
Verification development for the cube-unfolding geometry engine and net
classifier of `src/pages/Cube3DPage.tsx`.

The TypeScript source works with three.js `Vector3`/`Matrix4` values over
IEEE doubles.  Every matrix that the engine ever builds is a rigid affine
transform whose rotation part is a signed permutation matrix (all rotations
are quarter turns about coordinate axes), so all coordinates that actually
occur are rational and the float computations are exact.  The embedding
therefore models vectors and matrices over `ℚ`: a `Mat4` is the affine
transform `x ↦ lin · x + tr` (three.js matrices always have bottom row
`0 0 0 1` here).  Angles appear only through `cos` and `sin` of
`(π/2) · animProgress`; the embedding samples those at the quarter-turn
progress values `0, 1, 2` (the only ones the animation settles at and the
only ones any theorem below uses) via `cosQP` / `sinQP`.
-/

namespace CubeNet

/-- The four unfold directions of the source (`type Direction`). -/
inductive Direction where
  | UP
  | DOWN
  | LEFT
  | RIGHT
deriving DecidableEq, Fintype

open Direction

/-- `DIRECTIONS` from the source. -/
def DIRECTIONS : List Direction := [UP, DOWN, LEFT, RIGHT]

/-- Per-face runtime state (`type FaceState`).  Grid coordinates are the
integer cells used by the 2D legality checker; `animProgress` is rational
(the float progress value). Face references are indices `0..5`. -/
structure FaceState where
  unfolded : Bool
  animProgress : ℚ
  direction : Option Direction
  gridX : Int
  gridY : Int
  parentFace : Option (Fin 6)
deriving DecidableEq

/-- The initial folded state every face starts in (and is reset to by
fold-back, undo and reset). -/
def foldedFS : FaceState :=
  { unfolded := false, animProgress := 0, direction := none,
    gridX := 0, gridY := 0, parentFace := none }

/-- 3-vector over `ℚ`. -/
structure Vec3 where
  x : ℚ
  y : ℚ
  z : ℚ
deriving DecidableEq

/-- 3×3 matrix over `ℚ`, row major. -/
structure Mat3 where
  m11 : ℚ
  m12 : ℚ
  m13 : ℚ
  m21 : ℚ
  m22 : ℚ
  m23 : ℚ
  m31 : ℚ
  m32 : ℚ
  m33 : ℚ
deriving DecidableEq

/-- Rigid affine transform `x ↦ lin · x + tr` (a three.js `Matrix4` with
bottom row `0 0 0 1`). -/
structure Mat4 where
  lin : Mat3
  tr : Vec3
deriving DecidableEq

def addV (a b : Vec3) : Vec3 := ⟨a.x + b.x, a.y + b.y, a.z + b.z⟩

def subV (a b : Vec3) : Vec3 := ⟨a.x - b.x, a.y - b.y, a.z - b.z⟩

def negV (a : Vec3) : Vec3 := ⟨-a.x, -a.y, -a.z⟩

def scaleV (k : ℚ) (a : Vec3) : Vec3 := ⟨k * a.x, k * a.y, k * a.z⟩

def dotV (a b : Vec3) : ℚ := a.x * b.x + a.y * b.y + a.z * b.z

def crossV (a b : Vec3) : Vec3 :=
  ⟨a.y * b.z - a.z * b.y, a.z * b.x - a.x * b.z, a.x * b.y - a.y * b.x⟩

/-- Squared distance between two points. -/
def distSq (a b : Vec3) : ℚ := dotV (subV a b) (subV a b)

/-- Largest `r ≤ bound` with `r * r ≤ n` (structurally recursive integer
square root search). -/
def natSqrtAux (n : Nat) : Nat → Nat
  | 0 => 0
  | r + 1 => if (r + 1) * (r + 1) ≤ n then r + 1 else natSqrtAux n r

/-- Integer square root (structural, so that it evaluates by reduction). -/
def natSqrt (n : Nat) : Nat := natSqrtAux n n

/-- Exact rational square root: the unique nonnegative rational square root
when it exists, else `0`.  Every vector the engine ever normalizes has a
rational (indeed unit) length, where this agrees with the float `Math.sqrt`
exactly. -/
def sqrtQ (q : ℚ) : ℚ :=
  let n := natSqrt q.num.toNat
  let d := natSqrt q.den
  if q.num = (n : Int) * (n : Int) ∧ q.den = d * d then (n : ℚ) / (d : ℚ) else 0

/-- three.js `Vector3.normalize` (divides by the length; length `0` leaves
the vector unchanged, which never occurs in the engine). -/
def normalizeV (a : Vec3) : Vec3 :=
  let len := sqrtQ (dotV a a)
  if len = 0 then a else scaleV (1 / len) a

/-- three.js `Vector3.setLength`. -/
def setLengthV (a : Vec3) (l : ℚ) : Vec3 := scaleV l (normalizeV a)

def mat3Vec (m : Mat3) (v : Vec3) : Vec3 :=
  ⟨m.m11 * v.x + m.m12 * v.y + m.m13 * v.z,
   m.m21 * v.x + m.m22 * v.y + m.m23 * v.z,
   m.m31 * v.x + m.m32 * v.y + m.m33 * v.z⟩

def mat3Mul (a b : Mat3) : Mat3 :=
  ⟨a.m11 * b.m11 + a.m12 * b.m21 + a.m13 * b.m31,
   a.m11 * b.m12 + a.m12 * b.m22 + a.m13 * b.m32,
   a.m11 * b.m13 + a.m12 * b.m23 + a.m13 * b.m33,
   a.m21 * b.m11 + a.m22 * b.m21 + a.m23 * b.m31,
   a.m21 * b.m12 + a.m22 * b.m22 + a.m23 * b.m32,
   a.m21 * b.m13 + a.m22 * b.m23 + a.m23 * b.m33,
   a.m31 * b.m11 + a.m32 * b.m21 + a.m33 * b.m31,
   a.m31 * b.m12 + a.m32 * b.m22 + a.m33 * b.m32,
   a.m31 * b.m13 + a.m32 * b.m23 + a.m33 * b.m33⟩

def mat3Id : Mat3 := ⟨1, 0, 0, 0, 1, 0, 0, 0, 1⟩

def mat3Zero : Mat3 := ⟨0, 0, 0, 0, 0, 0, 0, 0, 0⟩

def mat3Det (m : Mat3) : ℚ :=
  m.m11 * (m.m22 * m.m33 - m.m23 * m.m32)
  - m.m12 * (m.m21 * m.m33 - m.m23 * m.m31)
  + m.m13 * (m.m21 * m.m32 - m.m22 * m.m31)

/-- Inverse of a 3×3 matrix via the adjugate (zero if singular, matching
`THREE.Matrix4.invert`, which zeroes the matrix when the determinant is 0;
never hit by the engine, whose matrices are rigid). -/
def mat3Inv (m : Mat3) : Mat3 :=
  let d := mat3Det m
  if d = 0 then mat3Zero
  else
    let k := 1 / d
    ⟨k * (m.m22 * m.m33 - m.m23 * m.m32),
     k * (m.m13 * m.m32 - m.m12 * m.m33),
     k * (m.m12 * m.m23 - m.m13 * m.m22),
     k * (m.m23 * m.m31 - m.m21 * m.m33),
     k * (m.m11 * m.m33 - m.m13 * m.m31),
     k * (m.m13 * m.m21 - m.m11 * m.m23),
     k * (m.m21 * m.m32 - m.m22 * m.m31),
     k * (m.m12 * m.m31 - m.m11 * m.m32),
     k * (m.m11 * m.m22 - m.m12 * m.m21)⟩

/-- Composition of affine transforms (`Matrix4.multiply`: `A · B`). -/
def mat4Mul (a b : Mat4) : Mat4 :=
  ⟨mat3Mul a.lin b.lin, addV (mat3Vec a.lin b.tr) a.tr⟩

/-- `Vector3.applyMatrix4`: apply an affine transform to a point. -/
def applyPoint (m : Mat4) (v : Vec3) : Vec3 := addV (mat3Vec m.lin v) m.tr

/-- `Matrix4.invert` on an affine transform with bottom row `0 0 0 1`. -/
def mat4Invert (m : Mat4) : Mat4 :=
  let li := mat3Inv m.lin
  if mat3Det m.lin = 0 then ⟨mat3Zero, ⟨0, 0, 0⟩⟩
  else ⟨li, negV (mat3Vec li m.tr)⟩

def mat4Id : Mat4 := ⟨mat3Id, ⟨0, 0, 0⟩⟩

/-- `FACE_SIZE` (`1.75` in the source). -/
def FACE_SIZE : ℚ := 7 / 4

/-- `HALF_FACE`. -/
def HALF_FACE : ℚ := FACE_SIZE / 2

/-- `TOTAL_FACES` (`FACE_COLORS.length`). -/
def TOTAL_FACES : Nat := 6

/-- Exact value of `cos ((π/2) · p)` at the quarter-turn progress samples
`p ∈ {0, 1, 2}` the engine settles at (other progress values occur only
transiently during an animation and in no theorem below; the embedding
returns the `p = 0` value for them). -/
def cosQP (p : ℚ) : ℚ :=
  if p = 0 then 1 else if p = 1 then 0 else if p = 2 then -1 else 1

/-- Exact value of `sin ((π/2) · p)` at the quarter-turn samples; see
`cosQP`. -/
def sinQP (p : ℚ) : ℚ :=
  if p = 0 then 0 else if p = 1 then 1 else if p = 2 then 0 else 0

/-- Rotation matrix about a unit axis `u` with given cosine and sine
(Rodrigues form).  This is exactly what
`Quaternion.setFromAxisAngle` followed by `makeRotationFromQuaternion`
computes for a unit axis. -/
def rotationAboutAxis (u : Vec3) (c s : ℚ) : Mat3 :=
  ⟨c + (1 - c) * u.x * u.x,
   (1 - c) * u.x * u.y - s * u.z,
   (1 - c) * u.x * u.z + s * u.y,
   (1 - c) * u.x * u.y + s * u.z,
   c + (1 - c) * u.y * u.y,
   (1 - c) * u.y * u.z - s * u.x,
   (1 - c) * u.x * u.z - s * u.y,
   (1 - c) * u.y * u.z + s * u.x,
   c + (1 - c) * u.z * u.z⟩

/-!
Folded-state face frames (`FOLDED_POSITIONS` / `FACE_BASE_INFO`).
Each face's rotation is a single quarter- or half-turn Euler rotation;
the matrices below are the exact values of the three.js
`Quaternion.setFromEuler` / `Matrix4.compose` computation at those angles.
Face order: 0=Front, 1=Back, 2=Top, 3=Bottom, 4=Right, 5=Left.
-/

/-- Rotation part of the folded pose of each face. -/
def foldedRot : Fin 6 → Mat3
  | 0 => mat3Id                                -- rot [0,0,0]
  | 1 => ⟨-1, 0, 0, 0, 1, 0, 0, 0, -1⟩         -- rot [0,π,0]
  | 2 => ⟨1, 0, 0, 0, 0, 1, 0, -1, 0⟩          -- rot [-π/2,0,0]
  | 3 => ⟨1, 0, 0, 0, 0, -1, 0, 1, 0⟩          -- rot [π/2,0,0]
  | 4 => ⟨0, 0, 1, 0, 1, 0, -1, 0, 0⟩          -- rot [0,π/2,0]
  | 5 => ⟨0, 0, -1, 0, 1, 0, 1, 0, 0⟩          -- rot [0,-π/2,0]

/-- Center position of the folded pose of each face. -/
def foldedPos : Fin 6 → Vec3
  | 0 => ⟨0, 0, HALF_FACE⟩
  | 1 => ⟨0, 0, -HALF_FACE⟩
  | 2 => ⟨0, HALF_FACE, 0⟩
  | 3 => ⟨0, -HALF_FACE, 0⟩
  | 4 => ⟨HALF_FACE, 0, 0⟩
  | 5 => ⟨-HALF_FACE, 0, 0⟩

/-- `BASE_MATRICES`: the static folded transform of each face. -/
def BASE_MATRICES (f : Fin 6) : Mat4 := ⟨foldedRot f, foldedPos f⟩

/-- `FACE_BASE_INFO[f].center`. -/
def faceCenter (f : Fin 6) : Vec3 := foldedPos f

/-- `FACE_BASE_INFO[f].normal` (`(0,0,1)` through the face quaternion,
normalized). -/
def faceNormal (f : Fin 6) : Vec3 := normalizeV (mat3Vec (foldedRot f) ⟨0, 0, 1⟩)

/-- `FACE_BASE_INFO[f].up`. -/
def faceUp (f : Fin 6) : Vec3 := normalizeV (mat3Vec (foldedRot f) ⟨0, 1, 0⟩)

/-- `FACE_BASE_INFO[f].right`. -/
def faceRight (f : Fin 6) : Vec3 := normalizeV (mat3Vec (foldedRot f) ⟨1, 0, 0⟩)

/-- `Math.round`, which rounds half-way cases toward `+∞`. -/
def roundQ (q : ℚ) : Int := ⌊q + 1 / 2⌋

/-- `vectorKey`: a vector keyed by its rounded components. -/
def vectorKey (v : Vec3) : Int × Int × Int := (roundQ v.x, roundQ v.y, roundQ v.z)

/-- `NORMAL_TO_FACE`: face index keyed by the rounded outward normal.  The
source builds a string-keyed record from the 6 (distinct) normal keys; the
embedding looks the key up directly. -/
def NORMAL_TO_FACE (k : Int × Int × Int) : Option (Fin 6) :=
  (List.finRange 6).find? (fun f => vectorKey (faceNormal f) = k)

/-- `getDirectionVector`. -/
def getDirectionVector (f : Fin 6) : Direction → Vec3
  | UP => faceUp f
  | DOWN => negV (faceUp f)
  | LEFT => negV (faceRight f)
  | RIGHT => faceRight f

/-- `getAxisVector`. -/
def getAxisVector (f : Fin 6) : Direction → Vec3
  | UP => faceRight f
  | DOWN => faceRight f
  | LEFT => faceUp f
  | RIGHT => faceUp f

/-- `HingeEntry`. -/
structure HingeEntry where
  parentFaceIndex : Fin 6
  pivot : Vec3
  axis : Vec3
  connection : Mat4
  childNormal : Vec3
deriving DecidableEq

/-- `HINGE_CONFIG`: for each face and direction, the derived hinge entry
(none when the direction's normal key resolves to no face — proven
unreachable in `c8_hinge_table_total`). -/
def HINGE_CONFIG (f : Fin 6) (d : Direction) : Option HingeEntry :=
  let dv := getDirectionVector f d
  match NORMAL_TO_FACE (vectorKey dv) with
  | none => none
  | some p =>
    let parentInverse := mat4Invert (BASE_MATRICES p)
    let pivotWorld := addV (faceCenter f) (setLengthV dv HALF_FACE)
    let pivotParent := applyPoint parentInverse pivotWorld
    let axisParent := normalizeV (mat3Vec parentInverse.lin (getAxisVector f d))
    let connection := mat4Mul parentInverse (BASE_MATRICES f)
    let childNormalParent := normalizeV (mat3Vec parentInverse.lin (faceNormal f))
    some
      { parentFaceIndex := p, pivot := pivotParent, axis := axisParent,
        connection := connection, childNormal := childNormalParent }

/-- `OPPOSITE_FACES` on valid face indices. -/
def OPPOSITE_FACES : Fin 6 → Fin 6
  | 0 => 1
  | 1 => 0
  | 2 => 3
  | 3 => 2
  | 4 => 5
  | 5 => 4

/-- `OPPOSITE_FACES` as the source's number-keyed record: `none` models the
`undefined` an out-of-range lookup yields. -/
def oppositeNat : Nat → Option Nat
  | 0 => some 1
  | 1 => some 0
  | 2 => some 3
  | 3 => some 2
  | 4 => some 5
  | 5 => some 4
  | _ => none

/-- `ADJACENT_ON_CUBE` (values are plain indices, as in the source). -/
def ADJACENT_ON_CUBE : Fin 6 → List Nat
  | 0 => [2, 3, 4, 5]
  | 1 => [2, 3, 4, 5]
  | 2 => [0, 1, 4, 5]
  | 3 => [0, 1, 4, 5]
  | 4 => [0, 1, 2, 3]
  | 5 => [0, 1, 2, 3]

/-- Lift a predicate over the value of an `Option`, `True` on `none`.  Used
to state properties of hinge lookups without a spurious hypothesis. -/
def onSome {α : Type} (o : Option α) (P : α → Prop) : Prop :=
  match o with
  | none => True
  | some a => P a

instance {α : Type} (o : Option α) (P : α → Prop) [∀ a, Decidable (P a)] :
    Decidable (onSome o P) :=
  match o with
  | none => .isTrue trivial
  | some a => inferInstanceAs (Decidable (P a))

/-- `PARENT_NORMAL_REFERENCE`. -/
def PARENT_NORMAL_REFERENCE : Vec3 := ⟨0, 0, 1⟩

/-- `buildChildMatrix`: the hinge rotation about the pivot composed with the
static connection transform, together with the rotated child normal.  The
rotation angle `sign * angle` enters through its cosine `c` and sine
`sign * s` (see `cosQP`/`sinQP`). -/
def buildChildMatrix (hinge : HingeEntry) (c s : ℚ) (sign : ℚ) : Mat4 × Vec3 :=
  let rotationMatrix := rotationAboutAxis hinge.axis c (sign * s)
  let hingeMatrixLocal : Mat4 :=
    ⟨rotationMatrix, subV hinge.pivot (mat3Vec rotationMatrix hinge.pivot)⟩
  let childMatrix := mat4Mul hingeMatrixLocal hinge.connection
  let rotatedNormal := normalizeV (mat3Vec rotationMatrix hinge.childNormal)
  (childMatrix, rotatedNormal)

/-- The branch of the twofold rotation-sign ambiguity the resolver picks:
the sign whose rotated child normal has the larger dot product with
`PARENT_NORMAL_REFERENCE` (ties go to the positive sign, as in the
source's `>=`). -/
def chosenChild (hinge : HingeEntry) (c s : ℚ) : Mat4 :=
  let positive := buildChildMatrix hinge c s 1
  let negative := buildChildMatrix hinge c s (-1)
  if dotV negative.2 PARENT_NORMAL_REFERENCE ≤
     dotV positive.2 PARENT_NORMAL_REFERENCE
  then positive.1 else negative.1

/-- `computeWorldMatrix`.  The source memoizes per evaluation pass in a
cache; the function is pure, so the embedding is the plain recursion.  The
source recursion is unbounded (it relies on the parent chain being acyclic);
the embedding carries explicit fuel, and `resolveWorldMatrix` supplies fuel
6, enough for every acyclic chain over 6 faces. -/
def computeWorldMatrix (faceStates : Fin 6 → FaceState) :
    Nat → Fin 6 → Mat4
  | 0, faceIndex => BASE_MATRICES faceIndex
  | fuel + 1, faceIndex =>
    let st := faceStates faceIndex
    if st.unfolded = false ∨ st.parentFace = none ∨ st.direction = none then
      BASE_MATRICES faceIndex
    else
      match st.direction with
      | none => BASE_MATRICES faceIndex
      | some d =>
        match HINGE_CONFIG faceIndex d with
        | none => BASE_MATRICES faceIndex
        | some hinge =>
          let parentMatrix := computeWorldMatrix faceStates fuel hinge.parentFaceIndex
          mat4Mul parentMatrix
            (chosenChild hinge (cosQP st.animProgress) (sinQP st.animProgress))

/-- `computeWorldMatrix` as consumed by the page (full fuel). -/
def resolveWorldMatrix (faceStates : Fin 6 → FaceState) (faceIndex : Fin 6) : Mat4 :=
  computeWorldMatrix faceStates 6 faceIndex

/-- `computeAllWorldMatrices`. -/
def computeAllWorldMatrices (faceStates : Fin 6 → FaceState) : List Mat4 :=
  (List.finRange 6).map (resolveWorldMatrix faceStates)

/-- Outward normal of a face placed by an affine transform (the rotation
part applied to the local `+z`; `getNormalFromMatrix` without the
normalization, which is exact for the rigid matrices the resolver
produces). -/
def matNormal (m : Mat4) : Vec3 := normalizeV (mat3Vec m.lin ⟨0, 0, 1⟩)

/-- Local position of the midpoint of the edge a face unfolds across (the
edge shared with the hinge parent): half a face toward the direction. -/
def edgeMidLocal : Direction → Vec3
  | UP => ⟨0, HALF_FACE, 0⟩
  | DOWN => ⟨0, -HALF_FACE, 0⟩
  | LEFT => ⟨-HALF_FACE, 0, 0⟩
  | RIGHT => ⟨HALF_FACE, 0, 0⟩

/-!
Net classifier.  A JS `Map` keyed by the string `"x,y"` is modelled as an
association list keyed by the integer pair, kept in insertion order with
distinct keys exactly as `Map` iterates; `Map.set` on an existing key
replaces the value in place.
-/

/-- Grid map: cell `(x, y)` to face index, in insertion order. -/
abbrev GMap : Type := List ((Int × Int) × Nat)

/-- `Map.has`. -/
def gmHas (m : GMap) (k : Int × Int) : Bool := m.any (fun e => decide (e.1 = k))

/-- `Map.get` (as an option). -/
def gmGet (m : GMap) (k : Int × Int) : Option Nat :=
  (m.find? (fun e => decide (e.1 = k))).map Prod.snd

/-- `Map.set`. -/
def gmSet (m : GMap) (k : Int × Int) (v : Nat) : GMap :=
  if gmHas m k then m.map (fun e => if e.1 = k then (k, v) else e) else m ++ [(k, v)]

/-- `Map.keys` in insertion order. -/
def gmKeys (m : GMap) : List (Int × Int) := m.map Prod.fst

/-- The grid map the legality checker builds from the currently unfolded
face states (`isValidNetPlacement`'s `gridMap`). -/
def buildGridMap (currentFaceStates : List FaceState) : GMap :=
  currentFaceStates.enum.foldl
    (fun m e => if e.2.unfolded then gmSet m (e.2.gridX, e.2.gridY) e.1 else m) []

/-- The `rot === 1` step of `getCanonicalShapeKey`: `(x, y) ↦ (y, -x)`. -/
def rotCW (p : Int × Int) : Int × Int := (p.2, -p.1)

/-- The `rot === 2` step: `(x, y) ↦ (-x, -y)`. -/
def rot180 (p : Int × Int) : Int × Int := (-p.1, -p.2)

/-- The `rot === 3` step: `(x, y) ↦ (-y, x)`. -/
def rotCCW (p : Int × Int) : Int × Int := (-p.2, p.1)

/-- The `flip === 1` step: `(x, y) ↦ (x, -y)`. -/
def flipY (p : Int × Int) : Int × Int := (p.1, -p.2)

/-- `Math.min(...)` over a list (the source only takes it over the 6
nonempty position lists; the empty case never occurs there). -/
def intMin : List Int → Int
  | [] => 0
  | x :: xs => xs.foldl min x

/-- The comparator `(a, b) => a[0] - b[0] || a[1] - b[1]`: ascending
lexicographic order on integer pairs. -/
def pairLE : Int × Int → Int × Int → Prop :=
  fun a b => a.1 < b.1 ∨ (a.1 = b.1 ∧ a.2 ≤ b.2)

instance : DecidableRel pairLE := fun a b =>
  inferInstanceAs (Decidable (a.1 < b.1 ∨ (a.1 = b.1 ∧ a.2 ≤ b.2)))

instance : IsTotal (Int × Int) pairLE :=
  ⟨fun a b => by
    rcases lt_trichotomy a.1 b.1 with h | h | h
    · exact Or.inl (Or.inl h)
    · rcases le_total a.2 b.2 with h2 | h2
      · exact Or.inl (Or.inr ⟨h, h2⟩)
      · exact Or.inr (Or.inr ⟨h.symm, h2⟩)
    · exact Or.inr (Or.inl h)⟩

instance : IsTrans (Int × Int) pairLE :=
  ⟨fun a b c hab hbc => by
    rcases hab with h | ⟨h, h2⟩ <;> rcases hbc with h' | ⟨h', h2'⟩
    · exact Or.inl (h.trans h')
    · exact Or.inl (h'.symm ▸ h)
    · exact Or.inl (h ▸ h')
    · exact Or.inr ⟨h.trans h', h2.trans h2'⟩⟩

instance : IsAntisymm (Int × Int) pairLE :=
  ⟨fun a b hab hba => by
    rcases hab with h | ⟨h, h2⟩ <;> rcases hba with h' | ⟨h', h2'⟩
    · exact absurd (h.trans h') (lt_irrefl _)
    · exact absurd h (h' ▸ lt_irrefl _)
    · exact absurd h' (h ▸ lt_irrefl _)
    · exact Prod.ext h (le_antisymm h2 h2')⟩

/-- Normalization step of `getCanonicalShapeKey`: translate so both minima
are `0`, then sort lexicographically (the JS `Array.sort` with a total,
antisymmetric comparator; `insertionSort` returns the same, unique, sorted
arrangement). -/
def normalizeShape (ps : List (Int × Int)) : List (Int × Int) :=
  let minX := intMin (ps.map Prod.fst)
  let minY := intMin (ps.map Prod.snd)
  List.insertionSort pairLE (ps.map (fun p => (p.1 - minX, p.2 - minY)))

/-- Serialization `"x0,y0;x1,y1;..."` of `getCanonicalShapeKey`. -/
def serializeShape (ps : List (Int × Int)) : String :=
  String.intercalate (String.singleton (Char.ofNat 59))
    (ps.map (fun p => toString p.1 ++ String.singleton (Char.ofNat 44) ++ toString p.2))

/-- One normalized serialization candidate. -/
def shapeKeyOf (ps : List (Int × Int)) : String := serializeShape (normalizeShape ps)

/-- The 8 candidate keys of `getCanonicalShapeKey`, in the order the
source's flip/rot loops push them (the cumulative rotations wind through
the four rotations in the order id, `rotCW`, `rotCCW`, `rot180`). -/
def canonsList (positions : List (Int × Int)) : List String :=
  let c0 := positions
  let c1 := c0.map rotCW
  let c2 := c1.map rot180
  let c3 := c2.map rotCCW
  let f0 := positions.map flipY
  let f1 := f0.map rotCW
  let f2 := f1.map rot180
  let f3 := f2.map rotCCW
  [shapeKeyOf c0, shapeKeyOf c1, shapeKeyOf c2, shapeKeyOf c3,
   shapeKeyOf f0, shapeKeyOf f1, shapeKeyOf f2, shapeKeyOf f3]

/-- Lexicographic order on strings (what the argument-less JS
`Array.sort` compares by; identical to Lean's `String` order on the
ASCII keys involved). -/
def stringLE : String → String → Prop := fun a b => a ≤ b

instance : DecidableRel stringLE := fun a b => inferInstanceAs (Decidable (a ≤ b))

instance : IsTotal String stringLE := ⟨fun a b => le_total a b⟩

instance : IsTrans String stringLE := ⟨fun _ _ _ h h' => le_trans h h'⟩

instance : IsAntisymm String stringLE := ⟨fun _ _ h h' => le_antisymm h h'⟩

/-- `getCanonicalShapeKey` on a raw position list: the lexicographically
smallest of the 8 candidates (`canons.sort()[0]`). -/
def getCanonicalShapeKeyPts (positions : List (Int × Int)) : String :=
  (List.insertionSort stringLE (canonsList positions)).headD (String.mk [])

/-- `getCanonicalShapeKey` (positions are the grid-map keys). -/
def getCanonicalShapeKey (gridMap : GMap) : String :=
  getCanonicalShapeKeyPts (gmKeys gridMap)

/-- `VALID_SHAPE_CANONICALS`: the precomputed canonical keys the source
declares valid (a JS `Set` of string literals; the literals are distinct,
so the list is the set). -/
def VALID_SHAPE_CANONICALS : List String :=
  ["0,0;0,1;0,2;0,3;1,0;2,0",
   "0,0;0,1;0,2;1,0;1,2;2,1",
   "0,0;0,1;0,2;1,1;2,1;3,1",
   "0,0;0,1;0,2;1,2;1,3;2,3",
   "0,0;0,1;1,0;1,1;1,2;2,2",
   "0,0;0,1;1,1;1,2;1,3;2,2",
   "0,0;0,1;1,1;1,2;1,3;2,3",
   "0,0;0,1;1,1;1,2;2,2;2,3",
   "0,1;1,0;1,1;1,2;1,3;2,1"]

/-- `wouldCreateOverlap`: check 1 (opposite faces orthogonally adjacent)
and check 2 (opposite faces a knight's move apart). -/
def wouldCreateOverlap (gridMap : GMap) (newFaceIndex : Fin 6)
    (newGridX newGridY : Int) : Bool :=
  let oppositeFace := (OPPOSITE_FACES newFaceIndex).val
  (gridMap.any fun e =>
    decide (e.2 = oppositeFace) &&
    decide ((e.1.1 - newGridX).natAbs + (e.1.2 - newGridY).natAbs = 1)) ||
  (gridMap.any fun e =>
    decide (e.2 = oppositeFace) &&
    (let dx := (e.1.1 - newGridX).natAbs
     let dy := (e.1.2 - newGridY).natAbs
     decide (dx + dy = 3) && decide (min dx dy = 1)))

/-- The four orthogonal neighbors of a cell. -/
def adjacentCells (p : Int × Int) : List (Int × Int) :=
  [(p.1 + 1, p.2), (p.1 - 1, p.2), (p.1, p.2 + 1), (p.1, p.2 - 1)]

/-- End test of a straight run: 4 or more collinear faces whose first and
last entries are opposite faces. -/
def lineEndsOpposite (faces : List ((Int × Int) × Nat)) : Bool :=
  decide (4 ≤ faces.length) &&
  (match faces.head?, faces.getLast? with
   | some a, some b => decide (oppositeNat a.2 = some b.2)
   | _, _ => false)

/-- Order on entries by x coordinate (the horizontal-line comparator). -/
def entryLEx : ((Int × Int) × Nat) → ((Int × Int) × Nat) → Prop :=
  fun a b => a.1.1 ≤ b.1.1

instance : DecidableRel entryLEx := fun a b => inferInstanceAs (Decidable (a.1.1 ≤ b.1.1))

/-- Order on entries by y coordinate (the vertical-line comparator). -/
def entryLEy : ((Int × Int) × Nat) → ((Int × Int) × Nat) → Prop :=
  fun a b => a.1.2 ≤ b.1.2

instance : DecidableRel entryLEy := fun a b => inferInstanceAs (Decidable (a.1.2 ≤ b.1.2))

/-- `validateDiagonalConfigurations`. -/
def validateDiagonalConfigurations (gridMap : GMap) (centerX centerY : Int) : Bool :=
  let check := fun (p1 p2 : Int × Int) =>
    match gmGet gridMap p1, gmGet gridMap p2 with
    | some face1, some face2 => decide (oppositeNat face1 = some face2)
    | _, _ => false
  if check (centerX - 1, centerY - 1) (centerX + 1, centerY + 1) then false
  else if check (centerX - 1, centerY + 1) (centerX + 1, centerY - 1) then false
  else true

/-- `validateStraightLineConfigurations`. -/
def validateStraightLineConfigurations (gridMap : GMap)
    (newGridX newGridY : Int) : Bool :=
  let horizontalFaces :=
    List.insertionSort entryLEx (gridMap.filter (fun e => decide (e.1.2 = newGridY)))
  if lineEndsOpposite horizontalFaces then false
  else if 4 < horizontalFaces.length then false
  else
    let verticalFaces :=
      List.insertionSort entryLEy (gridMap.filter (fun e => decide (e.1.1 = newGridX)))
    if lineEndsOpposite verticalFaces then false
    else if 4 < verticalFaces.length then false
    else validateDiagonalConfigurations gridMap newGridX newGridY

/-- Body of `validateConnectivity`'s BFS.  The source's `while` loop
terminates because every enqueued cell is a distinct occupied cell; the
fuel below strictly exceeds the number of possible pops. -/
def bfsLoop (gridMap : GMap) : Nat → List (Int × Int) → List (Int × Int) → List (Int × Int)
  | 0, visited, _ => visited
  | _ + 1, visited, [] => visited
  | fuel + 1, visited, current :: queue =>
    let step := (adjacentCells current).foldl
      (fun (acc : List (Int × Int) × List (Int × Int)) adjPos =>
        if gmHas gridMap adjPos && !(acc.1.any fun q => decide (q = adjPos)) then
          (acc.1 ++ [adjPos], acc.2 ++ [adjPos])
        else acc)
      (visited, queue)
    bfsLoop gridMap fuel step.1 step.2

/-- `validateConnectivity`. -/
def validateConnectivity (gridMap : GMap) : Bool :=
  if gridMap.length ≤ 1 then true
  else
    match gmKeys gridMap with
    | [] => true
    | p0 :: _ =>
      let visited := bfsLoop gridMap (gridMap.length + 1) [p0] [p0]
      decide (visited.length = gridMap.length)

/-- `validateBranchingPatterns`: the new cell must touch exactly one
already-placed cell. -/
def validateBranchingPatterns (gridMap : GMap) (newGridX newGridY : Int) : Bool :=
  decide ((adjacentCells (newGridX, newGridY)).countP (fun a => gmHas gridMap a) = 1)

/-- `validateKnownInvalidPatterns`: reject any fully occupied 2×2 block. -/
def validateKnownInvalidPatterns (gridMap : GMap) : Bool :=
  let positions := gmKeys gridMap
  if 4 ≤ positions.length then
    !(positions.any fun p =>
      [p, (p.1 + 1, p.2), (p.1, p.2 + 1), (p.1 + 1, p.2 + 1)].all
        (fun q => gmHas gridMap q))
  else true

/-- `isValidNetPlacement`. -/
def isValidNetPlacement (newFaceIndex : Fin 6) (newGridX newGridY : Int)
    (newParentIndex : Fin 6) (currentFaceStates : List FaceState) : Bool :=
  let gridMap := buildGridMap currentFaceStates
  if gmHas gridMap (newGridX, newGridY) then false
  else if !((ADJACENT_ON_CUBE newFaceIndex).contains newParentIndex.val) then false
  else if wouldCreateOverlap gridMap newFaceIndex newGridX newGridY then false
  else
    let tempGridMap := gmSet gridMap (newGridX, newGridY) newFaceIndex.val
    if !(validateStraightLineConfigurations tempGridMap newGridX newGridY) then false
    else if !(validateConnectivity tempGridMap) then false
    else if !(validateBranchingPatterns tempGridMap newGridX newGridY) then false
    else if !(validateKnownInvalidPatterns tempGridMap) then false
    else if tempGridMap.length = 6 then
      if !(VALID_SHAPE_CANONICALS.contains (getCanonicalShapeKey tempGridMap)) then false
      else true
    else true

/-- Result of `evaluateNetCompletion`. -/
structure NetCompletionStatus where
  isComplete : Bool
  canonicalKey : Option String
deriving DecidableEq

/-- Plane axes extracted from a world matrix (`getPlaneAxesFromMatrix`). -/
structure PlaneAxes where
  normal : Vec3
  right : Vec3
  up : Vec3

/-- `getPlaneAxesFromMatrix`. -/
def getPlaneAxesFromMatrix (m : Mat4) : PlaneAxes :=
  let normal := matNormal m
  let right0 := mat3Vec m.lin ⟨1, 0, 0⟩
  let projectedRight := subV right0 (scaleV (dotV right0 normal) normal)
  let safeRight :=
    if dotV projectedRight projectedRight < 1 / 1000000 then
      normalizeV (crossV ⟨0, 1, 0⟩ normal)
    else normalizeV projectedRight
  { normal := normal, right := safeRight,
    up := normalizeV (crossV normal safeRight) }

/-- The grid-snapping loop of `evaluateNetCompletion`: project each face
center onto the plane axes, round to the grid, reject off-grid or
duplicate cells. -/
def gridSnapLoop (planeRight planeUp : Vec3) :
    List Mat4 → Nat → GMap → Option GMap
  | [], _, acc => some acc
  | m :: rest, idx, acc =>
    let u := dotV m.tr planeRight
    let v := dotV m.tr planeUp
    let gridX := roundQ (u / FACE_SIZE)
    let gridY := roundQ (v / FACE_SIZE)
    if FACE_SIZE * (1 / 10) < |u - (gridX : ℚ) * FACE_SIZE| ∨
       FACE_SIZE * (1 / 10) < |v - (gridY : ℚ) * FACE_SIZE| then none
    else if gmHas acc (gridX, gridY) then none
    else gridSnapLoop planeRight planeUp rest (idx + 1) (gmSet acc (gridX, gridY) idx)

/-- `evaluateNetCompletion`. -/
def evaluateNetCompletion (faceStates : List FaceState)
    (worldMatrices : List Mat4) : NetCompletionStatus :=
  if faceStates.length ≠ TOTAL_FACES ∨ worldMatrices.length ≠ TOTAL_FACES then
    ⟨false, none⟩
  else
    let unfoldFaces := faceStates.filter (fun st => !st.unfolded)
    if unfoldFaces.length = 1 then ⟨true, none⟩
    else if faceStates.any (fun st =>
        !st.unfolded || decide (st.animProgress < 999 / 1000) || st.direction.isNone) then
      ⟨false, none⟩
    else
      match worldMatrices.head? with
      | none => ⟨false, none⟩
      | some m0 =>
        let axes := getPlaneAxesFromMatrix m0
        let planar := worldMatrices.all
          (fun m => decide ((999 : ℚ) / 1000 ≤ |dotV (matNormal m) axes.normal|))
        if !planar then ⟨false, none⟩
        else
          match gridSnapLoop axes.right axes.up worldMatrices 0 [] with
          | none => ⟨false, none⟩
          | some gridMap =>
            if gridMap.length ≠ TOTAL_FACES then ⟨false, none⟩
            else
              let canonicalKey := getCanonicalShapeKey gridMap
              if !(VALID_SHAPE_CANONICALS.contains canonicalKey) then ⟨false, none⟩
              else ⟨true, some canonicalKey⟩

/-!
Unfold graph and page state.  `createsCycle` walks the `parentFace` chain
with an unbounded `while` loop in the source; an acyclic chain over 6 faces
reaches `null` within 6 links, so fuel 7 never runs out on such states.  On
a state whose chain cycles without meeting `faceIndex` the source would
loop forever; the fuel-exhausted branch answers `true` (a cycle), which is
the reading every theorem below uses only on forest states, where it never
triggers.
-/

/-- The `while` walk of `createsCycle`: does the chain starting at the
given cursor meet `faceIndex`? -/
def cycleWalk (faceStates : Fin 6 → FaceState) (faceIndex : Fin 6) :
    Nat → Option (Fin 6) → Bool
  | _, none => false
  | 0, some _ => true
  | fuel + 1, some current =>
    if current = faceIndex then true
    else cycleWalk faceStates faceIndex fuel (faceStates current).parentFace

/-- `createsCycle`. -/
def createsCycle (faceStates : Fin 6 → FaceState)
    (candidateParent faceIndex : Fin 6) : Bool :=
  cycleWalk faceStates faceIndex 7 (some candidateParent)

/-- `getPossibleDirections`. -/
def getPossibleDirections (faceStates : Fin 6 → FaceState) (faceIndex : Fin 6) :
    List Direction :=
  if (faceStates faceIndex).unfolded then []
  else
    DIRECTIONS.filter fun d =>
      match HINGE_CONFIG faceIndex d with
      | none => false
      | some hinge => !createsCycle faceStates hinge.parentFaceIndex faceIndex

/-- Page state: the six face states plus the unfold history
(`faceStates`, `unfoldHistory`). -/
structure PageState where
  faces : Fin 6 → FaceState
  history : List (Fin 6)

/-- The initial page state. -/
def initialPage : PageState := ⟨fun _ => foldedFS, []⟩

/-- `handleUnfold`.  The mutation sets the unfold fields and starts the
animation toward progress 1; the embedding records the settled progress.
Note the source checks only that the hinge exists — it performs no cycle
check and no already-unfolded check here. -/
def handleUnfold (ps : PageState) (faceIndex : Fin 6) (d : Direction) : PageState :=
  match HINGE_CONFIG faceIndex d with
  | none => ps
  | some hinge =>
    ⟨Function.update ps.faces faceIndex
      { unfolded := true, animProgress := 1, direction := some d,
        gridX := 0, gridY := 0, parentFace := some hinge.parentFaceIndex },
     ps.history ++ [faceIndex]⟩

/-- `handleFoldBack`: unconditionally reset the one face to the folded
defaults (animation target 0, recorded settled) and drop it from the
history. -/
def handleFoldBack (ps : PageState) (faceIndex : Fin 6) : PageState :=
  ⟨Function.update ps.faces faceIndex foldedFS,
   ps.history.filter (fun idx => idx ≠ faceIndex)⟩

/-- Does the face some other still-unfolded face names as `parentFace`
(the `hasDependents` test of `handleUndo`)? -/
def undoHasDeps (faceStates : Fin 6 → FaceState) (lastFaceIndex : Fin 6) : Bool :=
  (List.finRange 6).any fun idx =>
    decide (idx ≠ lastFaceIndex) &&
    decide ((faceStates idx).parentFace = some lastFaceIndex) &&
    (faceStates idx).unfolded

/-- The `dependentFaces` list of `handleUndo`. -/
def undoDeps (faceStates : Fin 6 → FaceState) (lastFaceIndex : Fin 6) : List (Fin 6) :=
  (List.finRange 6).filter fun idx =>
    decide ((faceStates idx).parentFace = some lastFaceIndex) &&
    (faceStates idx).unfolded

/-- `handleUndo`: no-op on an empty history; otherwise fold back the most
recent entry, first folding every still-unfolded face whose `parentFace`
is that entry, and drop those faces from the history (without dependents,
just pop the last entry). -/
def handleUndo (ps : PageState) : PageState :=
  match ps.history.getLast? with
  | none => ps
  | some lastFaceIndex =>
    let s1 :=
      if undoHasDeps ps.faces lastFaceIndex then
        (undoDeps ps.faces lastFaceIndex).foldl
          (fun acc depIdx => Function.update acc depIdx foldedFS) ps.faces
      else ps.faces
    let hist1 :=
      if undoHasDeps ps.faces lastFaceIndex then
        ps.history.filter fun idx =>
          decide (idx ∉ undoDeps ps.faces lastFaceIndex) && decide (idx ≠ lastFaceIndex)
      else ps.history.dropLast
    ⟨Function.update s1 lastFaceIndex foldedFS, hist1⟩

/-- One step along the `parentFace` chain (`none` is absorbing). -/
def chainStep (faceStates : Fin 6 → FaceState) :
    Option (Fin 6) → Option (Fin 6)
  | none => none
  | some g => (faceStates g).parentFace

/-- `n` steps along the `parentFace` chain. -/
def chainIter (faceStates : Fin 6 → FaceState) :
    Nat → Option (Fin 6) → Option (Fin 6)
  | 0, c => c
  | n + 1, c => chainIter faceStates n (chainStep faceStates c)

/-- The `parentFace` chain from `a` reaches `b`. -/
def Reaches (faceStates : Fin 6 → FaceState) (a b : Fin 6) : Prop :=
  ∃ n : Nat, chainIter faceStates n (some a) = some b

/-- The `parentFace` relation is a forest: some rank strictly decreases
from child to parent, so no chain can revisit a face. -/
def IsForest (faceStates : Fin 6 → FaceState) : Prop :=
  ∃ rank : Fin 6 → Nat,
    ∀ f p : Fin 6, (faceStates f).parentFace = some p → rank p < rank f

/-!
The dihedral group on the grid plane, used to settle the canonicalization
claims.  `dihedral (k + 4*e)` is the rotation `rotCW^k` composed onto the
optional reflection `flipY^e` (reflection applied first).
-/

def dihedral : Fin 8 → (Int × Int) → (Int × Int)
  | 0, p => p
  | 1, p => (p.2, -p.1)
  | 2, p => (-p.1, -p.2)
  | 3, p => (-p.2, p.1)
  | 4, p => (p.1, -p.2)
  | 5, p => (-p.2, -p.1)
  | 6, p => (-p.1, p.2)
  | 7, p => (p.2, p.1)

/-- Composition table of the dihedral transforms:
`dihedral i ∘ dihedral j = dihedral (dmul i j)`. -/
def dmul : Fin 8 → Fin 8 → Fin 8
  | 0, j => j
  | 1, 0 => 1
  | 1, 1 => 2
  | 1, 2 => 3
  | 1, 3 => 0
  | 1, 4 => 5
  | 1, 5 => 6
  | 1, 6 => 7
  | 1, 7 => 4
  | 2, 0 => 2
  | 2, 1 => 3
  | 2, 2 => 0
  | 2, 3 => 1
  | 2, 4 => 6
  | 2, 5 => 7
  | 2, 6 => 4
  | 2, 7 => 5
  | 3, 0 => 3
  | 3, 1 => 0
  | 3, 2 => 1
  | 3, 3 => 2
  | 3, 4 => 7
  | 3, 5 => 4
  | 3, 6 => 5
  | 3, 7 => 6
  | 4, 0 => 4
  | 4, 1 => 7
  | 4, 2 => 6
  | 4, 3 => 5
  | 4, 4 => 0
  | 4, 5 => 3
  | 4, 6 => 2
  | 4, 7 => 1
  | 5, 0 => 5
  | 5, 1 => 4
  | 5, 2 => 7
  | 5, 3 => 6
  | 5, 4 => 1
  | 5, 5 => 0
  | 5, 6 => 3
  | 5, 7 => 2
  | 6, 0 => 6
  | 6, 1 => 5
  | 6, 2 => 4
  | 6, 3 => 7
  | 6, 4 => 2
  | 6, 5 => 1
  | 6, 6 => 0
  | 6, 7 => 3
  | 7, 0 => 7
  | 7, 1 => 6
  | 7, 2 => 5
  | 7, 3 => 4
  | 7, 4 => 3
  | 7, 5 => 2
  | 7, 6 => 1
  | 7, 7 => 0

/-- The dihedral indices of the 8 candidates of `getCanonicalShapeKey`, in
the order the source's loops generate them. -/
def canonIdx : List (Fin 8) := [0, 1, 3, 2, 4, 5, 7, 6]

/-- C7 witness: Front (face 0) placed at the origin; placing Back (face 1,
Front's opposite) at the orthogonally adjacent cell `(0, -1)` is
rejected. -/
def c7States : List FaceState :=
  [{ foldedFS with unfolded := true, gridX := 0, gridY := 0 }]

/-- C6 witness: three faces already fill `(0,0)`, `(1,0)`, `(0,1)`; the
candidate at `(1,1)` would complete the 2×2 block and is rejected. -/
def c6States : List FaceState :=
  [{ foldedFS with unfolded := true, gridX := 0, gridY := 0 },
   { foldedFS with unfolded := true, gridX := 1, gridY := 0 },
   { foldedFS with unfolded := true, gridX := 0, gridY := 1 }]

/-- C1 counterexample: five faces unfolded (at any animation progress, any
geometry) and one still folded — fewer than 6 unfolded — yet
`evaluateNetCompletion` reports the net complete, so the claim "fewer than
6 unfolded implies not complete" is false of the code. -/
def c1BadStates : List FaceState :=
  foldedFS :: List.replicate 5 { foldedFS with unfolded := true }

def c1BadMats : List Mat4 := List.replicate 6 mat4Id

/-- The scenario page state of C9: unfold Front (`0`) with DOWN (its hinge
parent is Bottom), then unfold Top (`2`) with DOWN (its hinge parent is
Front). -/
def c9Scenario : PageState := handleUnfold (handleUnfold initialPage 0 DOWN) 2 DOWN

/-- C5 counterexample: with Top (face 2) already unfolded onto Front
(`parentFace = 0`), unfolding Front in direction UP names Top as parent,
so the chain from the candidate parent reaches Front — yet `handleUnfold`
performs the mutation (it checks only that the hinge exists), marking
Front unfolded with `parentFace = 2` and leaving the `parentFace`
relation cyclic, contradicting "the unfold mutation does not occur". -/
def c5S : Fin 6 → FaceState := fun g =>
  if g = 2 then
    { unfolded := true, animProgress := 1, direction := some DOWN,
      gridX := 0, gridY := 0, parentFace := some 0 }
  else foldedFS

/-- C4 witness states: Top (face 2) unfolded DOWN onto Front (face 0),
sampled at animation progress 0 and 1. -/
def c4S0 : Fin 6 → FaceState := fun g =>
  if g = 2 then
    { unfolded := true, animProgress := 0, direction := some DOWN,
      gridX := 0, gridY := 0, parentFace := some 0 }
  else foldedFS

def c4S1 : Fin 6 → FaceState := fun g =>
  if g = 2 then
    { unfolded := true, animProgress := 1, direction := some DOWN,
      gridX := 0, gridY := 0, parentFace := some 0 }
  else foldedFS

/-- The hinge entry for (Top, DOWN): parent Front, pivot the shared edge
midpoint in Front's frame, axis Front's local x. -/
def c4H : HingeEntry :=
  { parentFaceIndex := 0,
    pivot := ⟨0, 7 / 8, 0⟩,
    axis := ⟨1, 0, 0⟩,
    connection := ⟨⟨1, 0, 0, 0, 0, 1, 0, -1, 0⟩, ⟨0, 7 / 8, -7 / 8⟩⟩,
    childNormal := ⟨0, 1, 0⟩ }

set_option maxHeartbeats 3200000 in
theorem dihedral_comp (i j : Fin 8) (p : Int × Int) :
    dihedral i (dihedral j p) = dihedral (dmul i j) p := by
  obtain ⟨x, y⟩ := p
  fin_cases i <;> fin_cases j <;> simp [dihedral, dmul]

theorem dmul_right_perm (g : Fin 8) :
    (canonIdx.map (fun i => dmul i g)).Perm canonIdx := by
  fin_cases g <;> decide

/-! Canonicalization (C3) lemmas. -/

theorem map_dihedral_zero (ps : List (Int × Int)) : ps.map (dihedral 0) = ps := by
  have : ps.map (dihedral 0) = ps.map id := List.map_congr_left (fun a _ => rfl)
  rw [this, List.map_id]

theorem canonsList_eq (ps : List (Int × Int)) :
    canonsList ps = canonIdx.map (fun i => shapeKeyOf (ps.map (dihedral i))) := by
  have m1 : ps.map rotCW = ps.map (dihedral 1) :=
    List.map_congr_left (fun a _ => rfl)
  have m2 : (ps.map rotCW).map rot180 = ps.map (dihedral 3) := by
    rw [List.map_map]
    exact List.map_congr_left (fun a _ => by
      obtain ⟨x, y⟩ := a
      simp [rotCW, rot180, dihedral])
  have m3 : ((ps.map rotCW).map rot180).map rotCCW = ps.map (dihedral 2) := by
    rw [List.map_map, List.map_map]
    exact List.map_congr_left (fun a _ => by
      obtain ⟨x, y⟩ := a
      simp [rotCW, rot180, rotCCW, dihedral])
  have m4 : ps.map flipY = ps.map (dihedral 4) :=
    List.map_congr_left (fun a _ => rfl)
  have m5 : (ps.map flipY).map rotCW = ps.map (dihedral 5) := by
    rw [List.map_map]
    exact List.map_congr_left (fun a _ => by
      obtain ⟨x, y⟩ := a
      simp [rotCW, flipY, dihedral])
  have m6 : ((ps.map flipY).map rotCW).map rot180 = ps.map (dihedral 7) := by
    rw [List.map_map, List.map_map]
    exact List.map_congr_left (fun a _ => by
      obtain ⟨x, y⟩ := a
      simp [rotCW, rot180, flipY, dihedral])
  have m7 : (((ps.map flipY).map rotCW).map rot180).map rotCCW = ps.map (dihedral 6) := by
    rw [List.map_map, List.map_map, List.map_map]
    exact List.map_congr_left (fun a _ => by
      obtain ⟨x, y⟩ := a
      simp [rotCW, rot180, rotCCW, flipY, dihedral])
  simp only [canonsList, canonIdx, List.map_cons, List.map_nil, List.cons.injEq, and_true]
  exact ⟨congrArg shapeKeyOf (map_dihedral_zero ps).symm,
    congrArg shapeKeyOf m1,
    congrArg shapeKeyOf m2,
    congrArg shapeKeyOf m3,
    congrArg shapeKeyOf m4,
    congrArg shapeKeyOf m5,
    congrArg shapeKeyOf m6,
    congrArg shapeKeyOf m7⟩

theorem insertionSort_headD_eq_of_perm {l₁ l₂ : List String} (h : l₁.Perm l₂) :
    (List.insertionSort stringLE l₁).headD (String.mk []) =
      (List.insertionSort stringLE l₂).headD (String.mk []) := by
  have heq : List.insertionSort stringLE l₁ = List.insertionSort stringLE l₂ :=
    List.eq_of_perm_of_sorted
      ((List.perm_insertionSort _ _).trans (h.trans (List.perm_insertionSort _ _).symm))
      (List.sorted_insertionSort _ _) (List.sorted_insertionSort _ _)
  rw [heq]

theorem insertionSort_headD_min (l : List String) (hne : l ≠ []) :
    (List.insertionSort stringLE l).headD (String.mk []) ∈ l ∧
    ∀ k ∈ l, stringLE ((List.insertionSort stringLE l).headD (String.mk [])) k := by
  have hperm := List.perm_insertionSort stringLE l
  have hsorted := List.sorted_insertionSort stringLE l
  cases hs : List.insertionSort stringLE l with
  | nil =>
    rw [hs] at hperm
    exact absurd hperm.symm.eq_nil hne
  | cons a t =>
    rw [hs] at hperm hsorted
    refine ⟨hperm.mem_iff.mp (List.mem_cons_self a t), ?_⟩
    intro k hk
    rcases List.mem_cons.mp (hperm.mem_iff.mpr hk) with rfl | hkt
    · simp [stringLE]
    · exact List.rel_of_sorted_cons hsorted k hkt

/-- C3: canonicalization is invariant under the dihedral group — for any 6
grid positions, pre-transforming by any of the 8 plane transforms (4
rotations, optionally composed with a reflection) leaves
`getCanonicalShapeKey` unchanged; moreover the canonical key is one of the
8 normalized serializations and is lexicographically least among them. -/
theorem c3_canonicalization_dihedral_invariant :
    ∀ (ps : List (Int × Int)), ps.length = 6 → ∀ g : Fin 8,
      getCanonicalShapeKeyPts (ps.map (dihedral g)) = getCanonicalShapeKeyPts ps ∧
      getCanonicalShapeKeyPts ps ∈ canonsList ps ∧
      ∀ k ∈ canonsList ps, stringLE (getCanonicalShapeKeyPts ps) k := by
  intro ps _hlen g
  have hc : ∀ i : Fin 8,
      (ps.map (dihedral g)).map (dihedral i) = ps.map (dihedral (dmul i g)) := by
    intro i
    rw [List.map_map]
    exact List.map_congr_left (fun a _ => dihedral_comp i g a)
  have hperm : (canonsList (ps.map (dihedral g))).Perm (canonsList ps) := by
    rw [canonsList_eq (ps.map (dihedral g)), canonsList_eq ps]
    have hmapped :
        canonIdx.map (fun i => shapeKeyOf ((ps.map (dihedral g)).map (dihedral i))) =
          (canonIdx.map (fun i => dmul i g)).map
            (fun j => shapeKeyOf (ps.map (dihedral j))) := by
      rw [List.map_map]
      exact List.map_congr_left (fun i _ => congrArg shapeKeyOf (hc i))
    rw [hmapped]
    exact (dmul_right_perm g).map (fun j => shapeKeyOf (ps.map (dihedral j)))
  have hne : canonsList ps ≠ [] := by
    rw [canonsList_eq]
    simp [canonIdx]
  refine ⟨?_, ?_, ?_⟩
  · unfold getCanonicalShapeKeyPts
    exact insertionSort_headD_eq_of_perm hperm
  · exact (insertionSort_headD_min (canonsList ps) hne).1
  · exact (insertionSort_headD_min (canonsList ps) hne).2

/-- C3 witness: the cross net, pre-transformed by `dihedral 5` (rotation
after reflection), canonicalizes to the same key. -/
theorem c3_canonicalization_dihedral_invariant_witness :
    ([((1 : Int), (0 : Int)), (1, 1), (1, 2), (1, 3), (0, 1), (2, 1)].length = 6) ∧
    getCanonicalShapeKeyPts
        ([((1 : Int), (0 : Int)), (1, 1), (1, 2), (1, 3), (0, 1), (2, 1)].map (dihedral 5)) =
      getCanonicalShapeKeyPts [((1 : Int), (0 : Int)), (1, 1), (1, 2), (1, 3), (0, 1), (2, 1)] :=
  ⟨by decide,
   (c3_canonicalization_dihedral_invariant
      [((1 : Int), (0 : Int)), (1, 1), (1, 2), (1, 3), (0, 1), (2, 1)] (by decide) 5).1⟩

/-! Cycle prevention (C5) lemmas. -/

theorem chainIter_none (s : Fin 6 → FaceState) : ∀ n : Nat, chainIter s n none = none
  | 0 => rfl
  | n + 1 => by
    show chainIter s n (chainStep s none) = none
    simpa [chainStep] using chainIter_none s n

theorem chainIter_succ_some (s : Fin 6 → FaceState) (n : Nat) (g : Fin 6) :
    chainIter s (n + 1) (some g) = chainIter s n ((s g).parentFace) := rfl

/-- A `createsCycle` walk that answers `false` has fully explored the chain
without meeting the face (fuel exhaustion answers `true`). -/
theorem cycleWalk_false_no_hit (s : Fin 6 → FaceState) (f : Fin 6) :
    ∀ (n : Nat) (c : Option (Fin 6)), cycleWalk s f n c = false →
      ∀ (m : Nat) (g : Fin 6), chainIter s m c = some g → g ≠ f := by
  intro n
  induction n with
  | zero =>
    intro c hw m g hit
    cases c with
    | none => rw [chainIter_none] at hit; cases hit
    | some cur => simp [cycleWalk] at hw
  | succ n ih =>
    intro c hw m g hit
    cases c with
    | none => rw [chainIter_none] at hit; cases hit
    | some cur =>
      by_cases hcf : cur = f
      · simp [cycleWalk, hcf] at hw
      · rw [show cycleWalk s f (n + 1) (some cur) =
            cycleWalk s f n ((s cur).parentFace) from by simp [cycleWalk, hcf]] at hw
        cases m with
        | zero =>
          injection hit with hit
          exact hit ▸ hcf
        | succ m =>
          rw [chainIter_succ_some] at hit
          exact ih _ hw m g hit

theorem createsCycle_false_no_reach {s : Fin 6 → FaceState} {p f : Fin 6}
    (h : createsCycle s p f = false) : ¬ Reaches s p f := by
  rintro ⟨n, hn⟩
  exact cycleWalk_false_no_hit s f 7 (some p) h n f hn rfl

/-- Reparenting a face onto a parent whose chain does not reach it keeps
the `parentFace` relation a forest. -/
theorem forest_update (s : Fin 6 → FaceState) (f p : Fin 6) (fs' : FaceState)
    (hfs' : fs'.parentFace = some p)
    (hforest : IsForest s) (hnr : ¬ Reaches s p f) :
    IsForest (Function.update s f fs') := by
  classical
  obtain ⟨rank, hrank⟩ := hforest
  refine ⟨fun g => if h : Reaches s g f
    then Finset.univ.sup rank + 1 + Nat.find h else rank g, ?_⟩
  intro g q hgq
  simp only []
  by_cases hgf : g = f
  · have hqp : q = p := by
      rw [hgf, Function.update_same, hfs'] at hgq
      exact (Option.some_inj.mp hgq).symm
    have hreach : Reaches s g f := by
      rw [hgf]
      exact ⟨0, rfl⟩
    rw [hqp, dif_pos hreach, dif_neg hnr]
    have hfind : Nat.find hreach = 0 := (Nat.find_eq_zero hreach).mpr (by
      rw [hgf]
      rfl)
    have hle : rank p ≤ Finset.univ.sup rank := Finset.le_sup (Finset.mem_univ p)
    omega
  · rw [Function.update_noteq hgf] at hgq
    by_cases hg : Reaches s g f
    · rw [dif_pos hg]
      have hfind := Nat.find_spec hg
      have hpos : Nat.find hg ≠ 0 := by
        intro h0
        rw [h0] at hfind
        injection hfind with h'
        exact hgf h'
      obtain ⟨n', hn'⟩ := Nat.exists_eq_succ_of_ne_zero hpos
      have hqwit : chainIter s n' (some q) = some f := by
        have := hfind
        rw [hn', chainIter_succ_some, hgq] at this
        exact this
      have hq_reach : Reaches s q f := ⟨n', hqwit⟩
      rw [dif_pos hq_reach]
      have hle : Nat.find hq_reach ≤ n' := Nat.find_le hqwit
      omega
    · rw [dif_neg hg]
      have hq_not : ¬ Reaches s q f := by
        rintro ⟨n, hn⟩
        exact hg ⟨n + 1, by rw [chainIter_succ_some, hgq]; exact hn⟩
      rw [dif_neg hq_not]
      exact hrank g q hgq

theorem mem_getPossibleDirections {s : Fin 6 → FaceState} {f : Fin 6} {d : Direction}
    (hd : d ∈ getPossibleDirections s f) :
    (s f).unfolded = false ∧
    ∀ h : HingeEntry, HINGE_CONFIG f d = some h →
      createsCycle s h.parentFaceIndex f = false := by
  unfold getPossibleDirections at hd
  by_cases hu : (s f).unfolded = true
  · rw [if_pos hu] at hd
    cases hd
  · rw [if_neg hu] at hd
    have hmem := List.mem_filter.mp hd
    refine ⟨by simpa using hu, ?_⟩
    intro h hh
    have hp := hmem.2
    rw [hh] at hp
    simpa using hp

theorem c5_counterexample :
    createsCycle c5S 2 0 = true ∧
    Reaches c5S 2 0 ∧
    ((handleUnfold ⟨c5S, []⟩ 0 UP).faces 0).unfolded = true ∧
    ((handleUnfold ⟨c5S, []⟩ 0 UP).faces 0).parentFace = some 2 ∧
    ¬ IsForest (handleUnfold ⟨c5S, []⟩ 0 UP).faces := by
  refine ⟨by with_unfolding_all decide, ⟨1, by with_unfolding_all decide⟩,
    by with_unfolding_all decide, by with_unfolding_all decide, ?_⟩
  rintro ⟨rank, hrank⟩
  have h1 := hrank 0 2 (by with_unfolding_all decide)
  have h2 := hrank 2 0 (by with_unfolding_all decide)
  omega

/-- C5 (amended): `getPossibleDirections` never offers a direction whose
hinge parent chain reaches the face — on forest states the cycle walk
answers `false` precisely because the chain never meets the face — and an
unfold taken from `getPossibleDirections` keeps the `parentFace` relation
a forest.  `handleUnfold` itself, however, performs no cycle check (see
`c5_counterexample`): it rejects only a missing hinge, so cycle freedom
relies on the caller restricting itself to `getPossibleDirections`. -/
theorem c5_cycle_prevention_amended :
    ∀ (ps : PageState) (f : Fin 6) (d : Direction),
      IsForest ps.faces → d ∈ getPossibleDirections ps.faces f →
      (∀ h : HingeEntry, HINGE_CONFIG f d = some h →
        createsCycle ps.faces h.parentFaceIndex f = false ∧
        ¬ Reaches ps.faces h.parentFaceIndex f) ∧
      IsForest (handleUnfold ps f d).faces := by
  intro ps f d hforest hd
  obtain ⟨hu, hcc⟩ := mem_getPossibleDirections hd
  refine ⟨fun h hh => ⟨hcc h hh, createsCycle_false_no_reach (hcc h hh)⟩, ?_⟩
  cases hh : HINGE_CONFIG f d with
  | none => simpa [handleUnfold, hh] using hforest
  | some h =>
    have hnr := createsCycle_false_no_reach (hcc h hh)
    have hres := forest_update ps.faces f h.parentFaceIndex
      { unfolded := true, animProgress := 1, direction := some d,
        gridX := 0, gridY := 0, parentFace := some h.parentFaceIndex }
      rfl hforest hnr
    simpa [handleUnfold, hh] using hres

theorem c5_cycle_prevention_amended_witness :
    (Direction.UP ∈ getPossibleDirections initialPage.faces 0) ∧
    IsForest (handleUnfold initialPage 0 Direction.UP).faces :=
  ⟨by with_unfolding_all decide,
   (c5_cycle_prevention_amended initialPage 0 Direction.UP
      ⟨fun _ => 0, fun f p hp => by simp [initialPage, foldedFS] at hp⟩
      (by with_unfolding_all decide)).2⟩

/-! Shared lemmas. -/

theorem onSome_elim {α : Type} {o : Option α} {P : α → Prop} {a : α}
    (h : onSome o P) (ha : o = some a) : P a := by
  rw [ha] at h
  exact h

theorem gmHas_iff_mem_keys {m : GMap} {k : Int × Int} :
    gmHas m k = true ↔ k ∈ gmKeys m := by
  simp only [gmHas, List.any_eq_true, decide_eq_true_eq, gmKeys, List.mem_map]

theorem gmKeys_gmSet_of_has {m : GMap} {k : Int × Int} {v : Nat}
    (hk : gmHas m k = true) : gmKeys (gmSet m k v) = gmKeys m := by
  unfold gmSet
  rw [if_pos hk]
  simp only [gmKeys, List.map_map]
  apply List.map_congr_left
  intro e _
  by_cases h : e.1 = k
  · simp [h]
  · simp [h]

theorem gmKeys_gmSet_of_not_has {m : GMap} {k : Int × Int} {v : Nat}
    (hk : ¬ gmHas m k = true) : gmKeys (gmSet m k v) = gmKeys m ++ [k] := by
  unfold gmSet
  rw [if_neg hk]
  simp [gmKeys]

theorem nodup_keys_gmSet {m : GMap} {k : Int × Int} {v : Nat}
    (h : (gmKeys m).Nodup) : (gmKeys (gmSet m k v)).Nodup := by
  by_cases hk : gmHas m k = true
  · rw [gmKeys_gmSet_of_has hk]
    exact h
  · rw [gmKeys_gmSet_of_not_has hk]
    have hkm : k ∉ gmKeys m := fun hmem => hk (gmHas_iff_mem_keys.mpr hmem)
    exact h.append (List.nodup_singleton k)
      ((List.disjoint_singleton).mpr hkm)

theorem nodup_keys_buildGridMap (states : List FaceState) :
    (gmKeys (buildGridMap states)).Nodup := by
  unfold buildGridMap
  have main : ∀ (l : List (Nat × FaceState)) (acc : GMap), (gmKeys acc).Nodup →
      (gmKeys (l.foldl
        (fun m e => if e.2.unfolded then gmSet m (e.2.gridX, e.2.gridY) e.1 else m)
        acc)).Nodup := by
    intro l
    induction l with
    | nil => intro acc h; exact h
    | cons e rest ih =>
      intro acc h
      simp only [List.foldl_cons]
      by_cases he : e.2.unfolded
      · simp only [he, if_true]
        exact ih _ (nodup_keys_gmSet h)
      · simp only [he]
        exact ih _ h
  exact main _ [] (by simp [gmKeys])

theorem any_of_mem_pred {α : Type} {l : List α} {p : α → Bool} {a : α}
    (ha : a ∈ l) (hp : p a = true) : l.any p = true :=
  List.any_eq_true.mpr ⟨a, ha, hp⟩

/-! Claim theorems. -/

/-- C2 counterexample: the precomputed canonical key set does not contain
11 keys — it contains 9, so the claim "exactly 11 pairwise distinct keys"
is false of the code. -/
theorem c2_counterexample :
    ¬ (VALID_SHAPE_CANONICALS.length = 11 ∧ VALID_SHAPE_CANONICALS.Nodup) := by
  with_unfolding_all decide

/-- C2 (amended): the precomputed set of valid canonical net keys contains
exactly 9 keys, and those keys are pairwise distinct. -/
theorem c2_canonical_set_nine_distinct :
    VALID_SHAPE_CANONICALS.length = 9 ∧ VALID_SHAPE_CANONICALS.Nodup := by
  with_unfolding_all decide

/-- C8: the hinge table is total — for every face and direction the lookup
resolves to an entry, and that entry's parent is one of the face's 4
cube-adjacent faces (never the face itself, never its opposite), so the
"no such hinge" branch is unreachable. -/
theorem c8_hinge_table_total :
    ∀ (f : Fin 6) (d : Direction),
      (HINGE_CONFIG f d).isSome = true ∧
      onSome (HINGE_CONFIG f d) (fun h =>
        h.parentFaceIndex ≠ f ∧
        h.parentFaceIndex ≠ OPPOSITE_FACES f ∧
        h.parentFaceIndex.val ∈ ADJACENT_ON_CUBE f) := by
  with_unfolding_all decide

/-- C10: fold-back is unconditional and pointwise minimal — for every page
state and face, `handleFoldBack` resets exactly that face's state to the
folded defaults and returns every other face's state unchanged (in
particular a face that still names the folded-back face as `parentFace`
keeps its pointer and stays unfolded). -/
theorem c10_foldback_independent_hinge :
    ∀ (ps : PageState) (f g : Fin 6),
      (handleFoldBack ps f).faces g = if g = f then foldedFS else ps.faces g := by
  intro ps f g
  simp [handleFoldBack, Function.update_apply]

/-- C7: a placement of the opposite of an already-placed face at an
orthogonally adjacent cell (Manhattan distance 1) is always rejected by
the incremental legality check. -/
theorem c7_opposite_adjacent_rejected :
    ∀ (states : List FaceState) (nf : Fin 6) (nx ny : Int) (np : Fin 6),
      (∃ px py : Int,
        ((px, py), (OPPOSITE_FACES nf).val) ∈ buildGridMap states ∧
        (px - nx).natAbs + (py - ny).natAbs = 1) →
      isValidNetPlacement nf nx ny np states = false := by
  intro states nf nx ny np ⟨px, py, hmem, hd⟩
  have hover : wouldCreateOverlap (buildGridMap states) nf nx ny = true := by
    unfold wouldCreateOverlap
    rw [Bool.or_eq_true]
    left
    exact any_of_mem_pred hmem (by simp [hd])
  simp [isValidNetPlacement, hover]

theorem c7_opposite_adjacent_rejected_witness :
    (((0, 0), (OPPOSITE_FACES 1).val) ∈ buildGridMap c7States ∧
      ((0 : Int) - 0).natAbs + ((0 : Int) - (-1)).natAbs = 1) ∧
    isValidNetPlacement 1 0 (-1) 2 c7States = false :=
  ⟨⟨by with_unfolding_all decide, by decide⟩,
   c7_opposite_adjacent_rejected c7States 1 0 (-1) 2
     ⟨0, 0, by with_unfolding_all decide, by decide⟩⟩

/-- C6: any candidate placement after which some 2×2 block of grid cells
is fully occupied is rejected by the incremental legality check,
whatever the face indices involved. -/
theorem c6_two_by_two_rejected :
    ∀ (states : List FaceState) (nf : Fin 6) (nx ny : Int) (np : Fin 6),
      (∃ x y : Int,
        gmHas (gmSet (buildGridMap states) (nx, ny) nf.val) (x, y) = true ∧
        gmHas (gmSet (buildGridMap states) (nx, ny) nf.val) (x + 1, y) = true ∧
        gmHas (gmSet (buildGridMap states) (nx, ny) nf.val) (x, y + 1) = true ∧
        gmHas (gmSet (buildGridMap states) (nx, ny) nf.val) (x + 1, y + 1) = true) →
      isValidNetPlacement nf nx ny np states = false := by
  intro states nf nx ny np ⟨x, y, h1, h2, h3, h4⟩
  have hnd : (gmKeys (gmSet (buildGridMap states) (nx, ny) nf.val)).Nodup :=
    nodup_keys_gmSet (nodup_keys_buildGridMap states)
  have hsub : ([(x, y), (x + 1, y), (x, y + 1), (x + 1, y + 1)] : List (Int × Int)) ⊆
      gmKeys (gmSet (buildGridMap states) (nx, ny) nf.val) := by
    intro q hq
    fin_cases hq
    · exact gmHas_iff_mem_keys.mp h1
    · exact gmHas_iff_mem_keys.mp h2
    · exact gmHas_iff_mem_keys.mp h3
    · exact gmHas_iff_mem_keys.mp h4
  have hnd4 : ([(x, y), (x + 1, y), (x, y + 1), (x + 1, y + 1)] : List (Int × Int)).Nodup := by
    simp [List.nodup_cons, Prod.ext_iff]
  have hlen : 4 ≤ (gmKeys (gmSet (buildGridMap states) (nx, ny) nf.val)).length := by
    simpa using (hnd4.subperm hsub).length_le
  have hkip : validateKnownInvalidPatterns
      (gmSet (buildGridMap states) (nx, ny) nf.val) = false := by
    unfold validateKnownInvalidPatterns
    rw [if_pos hlen]
    simp only [Bool.not_eq_false', List.any_eq_true, List.all_eq_true]
    refine ⟨(x, y), gmHas_iff_mem_keys.mp h1, ?_⟩
    intro q hq
    fin_cases hq
    · exact h1
    · exact h2
    · exact h3
    · exact h4
  simp only [isValidNetPlacement]
  simp [hkip]

theorem c6_two_by_two_rejected_witness :
    gmHas (gmSet (buildGridMap c6States) (1, 1) (4 : Fin 6).val) (0, 0) = true ∧
    gmHas (gmSet (buildGridMap c6States) (1, 1) (4 : Fin 6).val) (1, 1) = true ∧
    isValidNetPlacement 4 1 1 0 c6States = false :=
  ⟨by with_unfolding_all decide, by with_unfolding_all decide,
   c6_two_by_two_rejected c6States 4 1 1 0
     ⟨0, 0, by with_unfolding_all decide, by with_unfolding_all decide,
      by with_unfolding_all decide, by with_unfolding_all decide⟩⟩

/-- Splitting a 6-element list by the `unfolded` flag: the folded faces
plus the unfolded count make up the length. -/
theorem filter_folded_length (l : List FaceState) :
    (l.filter (fun st => !st.unfolded)).length + l.countP (fun st => st.unfolded) =
      l.length := by
  induction l with
  | nil => rfl
  | cons a t ih =>
    cases ha : a.unfolded <;>
      simp [List.countP_cons, ha, List.filter_cons] <;> omega

theorem c1_counterexample :
    c1BadStates.length = 6 ∧
    c1BadStates.countP (fun st => st.unfolded) = 5 ∧
    (evaluateNetCompletion c1BadStates c1BadMats).isComplete = true := by
  with_unfolding_all decide

/-- C1 (amended): with 6 face states and 6 matrices, the completion query
reports `isComplete = false` whenever at most 4 faces are unfolded, and it
reports `isComplete = true` whenever exactly 5 faces are unfolded —
regardless of the world matrices (the source returns `true` as soon as
exactly one face remains folded, before any geometric check). -/
theorem c1_no_false_completion_amended :
    ∀ (faceStates : List FaceState) (worldMatrices : List Mat4),
      faceStates.length = 6 → worldMatrices.length = 6 →
      (faceStates.countP (fun st => st.unfolded) ≤ 4 →
        (evaluateNetCompletion faceStates worldMatrices).isComplete = false) ∧
      (faceStates.countP (fun st => st.unfolded) = 5 →
        (evaluateNetCompletion faceStates worldMatrices).isComplete = true) := by
  intro fs wm hlen hlen2
  have hsplit := filter_folded_length fs
  constructor
  · intro hcount
    have hne1 : ¬ (fs.filter (fun st => !st.unfolded)).length = 1 := by omega
    have hpos : 0 < (fs.filter (fun st => !st.unfolded)).length := by omega
    obtain ⟨a, ha⟩ := List.exists_mem_of_length_pos hpos
    have hafold : a.unfolded = false := by
      have := List.of_mem_filter ha
      simpa using this
    have hamem : a ∈ fs := List.mem_of_mem_filter ha
    have hany : fs.any (fun st =>
        !st.unfolded || decide (st.animProgress < 999 / 1000) || st.direction.isNone) =
          true :=
      any_of_mem_pred hamem (by simp [hafold])
    simp [evaluateNetCompletion, hlen, hlen2, TOTAL_FACES, hne1, hany]
  · intro hcount
    have hfl1 : (fs.filter (fun st => !st.unfolded)).length = 1 := by omega
    simp [evaluateNetCompletion, hlen, hlen2, TOTAL_FACES, hfl1]

theorem c1_no_false_completion_witness :
    (evaluateNetCompletion (List.replicate 6 foldedFS)
      (List.replicate 6 mat4Id)).isComplete = false ∧
    (evaluateNetCompletion c1BadStates c1BadMats).isComplete = true :=
  ⟨(c1_no_false_completion_amended (List.replicate 6 foldedFS) (List.replicate 6 mat4Id)
      (by decide) (by decide)).1 (by decide),
   (c1_no_false_completion_amended c1BadStates c1BadMats
      (by with_unfolding_all decide) (by decide)).2 (by with_unfolding_all decide)⟩

/-! Undo (C9) lemmas. -/

theorem foldl_update_apply (deps : List (Fin 6)) (s : Fin 6 → FaceState) (g : Fin 6) :
    (deps.foldl (fun acc depIdx => Function.update acc depIdx foldedFS) s) g =
      if g ∈ deps then foldedFS else s g := by
  induction deps generalizing s with
  | nil => simp
  | cons a t ih =>
    simp only [List.foldl_cons, ih]
    by_cases hg : g ∈ t
    · simp [hg]
    · by_cases hga : g = a <;> simp [hg, hga, Function.update_apply]

theorem mem_undoDeps {s : Fin 6 → FaceState} {L g : Fin 6} :
    g ∈ undoDeps s L ↔ ((s g).parentFace = some L ∧ (s g).unfolded = true) := by
  simp [undoDeps, List.mem_filter]

theorem undoHasDeps_false_spec {s : Fin 6 → FaceState} {L : Fin 6}
    (h : undoHasDeps s L = false) :
    ∀ g : Fin 6, g ≠ L → ¬ ((s g).parentFace = some L ∧ (s g).unfolded = true) := by
  intro g hg hcontr
  have : undoHasDeps s L = true :=
    any_of_mem_pred (List.mem_finRange g) (by simp [hg, hcontr.1, hcontr.2])
  rw [h] at this
  cases this

/-- C9: undo is LIFO over the unfold history.  With history `hist ++ [L]`,
`handleUndo` folds back `L` and exactly the still-unfolded faces whose
`parentFace` is `L`, leaves every other face state untouched, and removes
the reversed faces from the history (just popping `L` when it has no
dependents).  In the scenario — unfold Front, then Top as a child of
Front — one undo folds back only Top, Front stays unfolded with its state
intact, and a second undo folds back Front. -/
theorem c9_undo_lifo :
    (∀ (s : Fin 6 → FaceState) (hist : List (Fin 6)) (L g : Fin 6),
      (handleUndo ⟨s, hist ++ [L]⟩).faces g =
        if g = L ∨ ((s g).parentFace = some L ∧ (s g).unfolded = true) then foldedFS
        else s g) ∧
    (∀ (s : Fin 6 → FaceState) (hist : List (Fin 6)) (L : Fin 6),
      (handleUndo ⟨s, hist ++ [L]⟩).history =
        if undoHasDeps s L then
          (hist ++ [L]).filter fun idx =>
            decide (idx ∉ undoDeps s L) && decide (idx ≠ L)
        else hist) ∧
    (((handleUndo c9Scenario).faces 2).unfolded = false ∧
      (handleUndo c9Scenario).faces 0 = c9Scenario.faces 0 ∧
      ((handleUndo c9Scenario).faces 0).unfolded = true ∧
      (handleUndo c9Scenario).history = [0] ∧
      ((handleUndo (handleUndo c9Scenario)).faces 0).unfolded = false ∧
      (handleUndo (handleUndo c9Scenario)).history = []) := by
  refine ⟨?_, ?_, ?_⟩
  · intro s hist L g
    unfold handleUndo
    rw [List.getLast?_concat]
    simp only
    by_cases hg : g = L
    · subst hg
      simp [Function.update_apply]
    · rw [Function.update_apply, if_neg hg]
      by_cases hd : undoHasDeps s L = true
      · rw [if_pos hd, foldl_update_apply]
        by_cases hgd : (s g).parentFace = some L ∧ (s g).unfolded = true
        · rw [if_pos (mem_undoDeps.mpr hgd), if_pos (Or.inr hgd)]
        · rw [if_neg (fun hmem => hgd (mem_undoDeps.mp hmem)),
            if_neg (by tauto)]
      · rw [if_neg hd]
        have := undoHasDeps_false_spec (Bool.eq_false_iff.mpr hd) g hg
        rw [if_neg (by tauto)]
  · intro s hist L
    unfold handleUndo
    rw [List.getLast?_concat]
    by_cases hd : undoHasDeps s L = true
    · simp only [hd, if_true]
    · simp only [hd, if_false]
      exact List.dropLast_concat
  · refine ⟨?_, ?_, ?_, ?_, ?_, ?_⟩ <;> with_unfolding_all decide

/-! Pose resolver (C4) lemmas. -/

/-- At hinge angle 0 (cosine 1, sine 0) the chosen child transform composed
onto the parent's folded pose is exactly the child's folded pose, for every
face and direction. -/
theorem chosenChild_angle_zero :
    ∀ (f : Fin 6) (d : Direction),
      onSome (HINGE_CONFIG f d) (fun h =>
        mat4Mul (BASE_MATRICES h.parentFaceIndex) (chosenChild h 1 0) =
          BASE_MATRICES f) := by
  with_unfolding_all decide

/-- At hinge angle π/2 (cosine 0, sine 1) the chosen child transform
composed onto the parent's folded pose lies flat: same outward normal as
the parent, center exactly one face-width from the parent's center, and
the child's hinge-edge midpoint lands exactly on the pivot (zero gap), for
every face and direction. -/
theorem chosenChild_angle_quarter :
    ∀ (f : Fin 6) (d : Direction),
      onSome (HINGE_CONFIG f d) (fun h =>
        matNormal (mat4Mul (BASE_MATRICES h.parentFaceIndex) (chosenChild h 0 1)) =
          matNormal (BASE_MATRICES h.parentFaceIndex) ∧
        distSq (mat4Mul (BASE_MATRICES h.parentFaceIndex) (chosenChild h 0 1)).tr
          (BASE_MATRICES h.parentFaceIndex).tr = FACE_SIZE * FACE_SIZE ∧
        applyPoint (mat4Mul (BASE_MATRICES h.parentFaceIndex) (chosenChild h 0 1))
          (edgeMidLocal d) =
          applyPoint (BASE_MATRICES h.parentFaceIndex) h.pivot) := by
  with_unfolding_all decide

/-- Unfolding the resolver once for a face whose parent is folded. -/
theorem computeWorldMatrix_unfold_step
    (s : Fin 6 → FaceState) (f : Fin 6) (d : Direction) (h : HingeEntry)
    (hh : HINGE_CONFIG f d = some h)
    (hu : (s f).unfolded = true)
    (hd : (s f).direction = some d)
    (hp : (s f).parentFace.isSome = true)
    (hpar : (s h.parentFaceIndex).unfolded = false) :
    resolveWorldMatrix s f =
      mat4Mul (BASE_MATRICES h.parentFaceIndex)
        (chosenChild h (cosQP (s f).animProgress) (sinQP (s f).animProgress)) ∧
    resolveWorldMatrix s h.parentFaceIndex = BASE_MATRICES h.parentFaceIndex := by
  obtain ⟨pp, hpp⟩ := Option.isSome_iff_exists.mp hp
  have hparent : ∀ n : Nat, computeWorldMatrix s (n + 1) h.parentFaceIndex =
      BASE_MATRICES h.parentFaceIndex := by
    intro n
    simp [computeWorldMatrix, hpar]
  constructor
  · show computeWorldMatrix s (5 + 1) f = _
    rw [computeWorldMatrix]
    simp only [hu, hd, hpp, hh]
    rw [if_neg (by simp)]
    rw [hparent 4]
  · exact hparent 5

/-- C4: for every state in which face `f` is unfolded in direction `d`
(with its `parentFace` set) while the hinge parent is still folded: the
parent resolves to its static folded pose; at `animProgress = 0` the face
resolves exactly to its own static folded transform (`BASE_MATRICES`); and
at `animProgress = 1` the face's plane is coplanar with the parent's plane
(equal outward normals), its center is exactly one face-width from the
parent's center, and the face's hinge-edge midpoint coincides exactly with
the parent-side edge midpoint (gap 0, hence below any 1e-6 tolerance). -/
theorem c4_round_trip_pose :
    ∀ (s : Fin 6 → FaceState) (f : Fin 6) (d : Direction) (h : HingeEntry),
      HINGE_CONFIG f d = some h →
      (s f).unfolded = true →
      (s f).direction = some d →
      (s f).parentFace.isSome = true →
      (s h.parentFaceIndex).unfolded = false →
      (resolveWorldMatrix s h.parentFaceIndex = BASE_MATRICES h.parentFaceIndex) ∧
      ((s f).animProgress = 0 → resolveWorldMatrix s f = BASE_MATRICES f) ∧
      ((s f).animProgress = 1 →
        matNormal (resolveWorldMatrix s f) =
          matNormal (BASE_MATRICES h.parentFaceIndex) ∧
        distSq (resolveWorldMatrix s f).tr (BASE_MATRICES h.parentFaceIndex).tr =
          FACE_SIZE * FACE_SIZE ∧
        applyPoint (resolveWorldMatrix s f) (edgeMidLocal d) =
          applyPoint (BASE_MATRICES h.parentFaceIndex) h.pivot) := by
  intro s f d h hh hu hd hp hpar
  obtain ⟨main, hparent⟩ := computeWorldMatrix_unfold_step s f d h hh hu hd hp hpar
  refine ⟨hparent, ?_, ?_⟩
  · intro h0
    rw [main, h0]
    have hc : cosQP 0 = 1 := by simp [cosQP]
    have hs : sinQP 0 = 0 := by simp [sinQP]
    rw [hc, hs]
    have hz := chosenChild_angle_zero f d
    rw [hh] at hz
    exact hz
  · intro h1
    rw [main, h1]
    have hc : cosQP 1 = 0 := by norm_num [cosQP]
    have hs : sinQP 1 = 1 := by norm_num [sinQP]
    rw [hc, hs]
    have hq := chosenChild_angle_quarter f d
    rw [hh] at hq
    exact hq

theorem c4_round_trip_pose_witness :
    HINGE_CONFIG 2 DOWN = some c4H ∧
    resolveWorldMatrix c4S0 2 = BASE_MATRICES 2 ∧
    applyPoint (resolveWorldMatrix c4S1 2) (edgeMidLocal DOWN) =
      applyPoint (BASE_MATRICES c4H.parentFaceIndex) c4H.pivot :=
  ⟨by with_unfolding_all decide,
   (c4_round_trip_pose c4S0 2 DOWN c4H (by with_unfolding_all decide)
      (by with_unfolding_all decide) (by with_unfolding_all decide)
      (by with_unfolding_all decide) (by with_unfolding_all decide)).2.1
     (by with_unfolding_all decide),
   ((c4_round_trip_pose c4S1 2 DOWN c4H (by with_unfolding_all decide)
      (by with_unfolding_all decide) (by with_unfolding_all decide)
      (by with_unfolding_all decide) (by with_unfolding_all decide)).2.2
     (by with_unfolding_all decide)).2.2⟩

end CubeNet
